/-
Verification of the winit GTK backend event-loop driver.

This file gives a shallow embedding of the core of `winit-gtk`:
the run/pump state machine (`event_loop.rs`), the window request
channel consumer (`window_request.rs`), the synchronized window
state (`window_state.rs`) and the peekable channel receiver, and
proves the documented properties about them.

Durations and instants are modelled as natural numbers (a count of
nanoseconds); `saturating_duration_since` becomes truncated natural
subtraction.  The `f64` scale factor of `window_state.rs` is modelled
as a rational number, with Rust's `f64::round` + saturating `as u32`
cast modelled explicitly.
-/
import Mathlib

namespace Winit

/-! ## Control flow and start causes (`winit_core`, used by `event_loop.rs`) -/

/-- `ControlFlow` from winit-core: `Poll`, `Wait`, `WaitUntil(deadline)`.
Deadlines are instants in nanoseconds. -/
inductive ControlFlow where
  | Poll : ControlFlow
  | Wait : ControlFlow
  | WaitUntil (deadline : Nat) : ControlFlow
deriving DecidableEq, Repr

/-- `StartCause` from winit-core, as produced by `poll_events_with_timeout`. -/
inductive StartCause where
  | Init : StartCause
  | Poll : StartCause
  | WaitCancelled (start : Nat) (requested_resume : Option Nat) : StartCause
  | ResumeTimeReached (start : Nat) (requested_resume : Nat) : StartCause
deriving DecidableEq, Repr

/-! ## The timeout computation of `EventLoop::poll_events_with_timeout`
(`event_loop.rs` lines 340-362) -/

/-- `EventLoop::has_pending` (`event_loop.rs` lines 333-338): an event is
queued, a redraw is queued, the proxy wake flag is set, or GTK reports
native events pending. -/
def has_pending (events_incoming redraw_incoming proxy_wake gtk_events_pending : Bool) : Bool :=
  events_incoming || redraw_incoming || proxy_wake || gtk_events_pending

/-- The timeout mutation of `poll_events_with_timeout` (`event_loop.rs`
lines 347-360): if anything is pending the timeout is forced to zero,
otherwise the caller timeout is combined with the control-flow-derived
timeout.  `deadline.saturating_duration_since(start)` is truncated
subtraction on `Nat`. -/
def compute_timeout (pending : Bool) (timeout : Option Nat) (cf : ControlFlow) (start : Nat) :
    Option Nat :=
  if pending then some 0
  else
    let control_flow_timeout : Option Nat :=
      match cf with
      | .Wait => none
      | .Poll => some 0
      | .WaitUntil deadline => some (deadline - start)
    match timeout, control_flow_timeout with
    | none, x => x
    | x, none => x
    | some l, some r => some (min l r)

/-- The start-cause derivation of `poll_events_with_timeout` (`event_loop.rs`
lines 364-374), where `now` is the instant observed after the native poll. -/
def compute_cause (cf : ControlFlow) (start now : Nat) : StartCause :=
  match cf with
  | .Poll => .Poll
  | .Wait => .WaitCancelled start none
  | .WaitUntil deadline =>
    if now < deadline then .WaitCancelled start (some deadline)
    else .ResumeTimeReached start deadline

/-- The policy timeout exactly as the claim words it: `Poll` yields zero,
`Wait` yields no bound, `WaitUntil d` yields `d - now` clamped at zero. -/
def claimed_policy_timeout : ControlFlow → Nat → Option Nat
  | .Poll, _ => some 0
  | .Wait, _ => none
  | .WaitUntil d, now => some (d - now)

/-- Minimum of two optional durations, treating `none` (no bound) as the
identity, as the claim words it. -/
def min_with_unbounded : Option Nat → Option Nat → Option Nat
  | none, x => x
  | some l, none => some l
  | some l, some r => some (min l r)

/-- The effective timeout exactly as claim C3 states it: zero when a queued
event, redraw request, or proxy wake is pending (native GTK pending events
are NOT part of this disjunction), otherwise the minimum of the caller
timeout and the policy timeout. -/
def claimed_timeout (events_incoming redraw_incoming proxy_wake : Bool)
    (caller : Option Nat) (cf : ControlFlow) (now : Nat) : Option Nat :=
  if events_incoming || redraw_incoming || proxy_wake then some 0
  else min_with_unbounded caller (claimed_policy_timeout cf now)

/-! ## The skip decision of `poll_events_with_timeout`
(`event_loop.rs` lines 364-384) -/

/-- The inputs of one `poll_events_with_timeout` call that determine its
control decisions: the caller timeout, the control-flow policy, the start
instant, the instant observed after the native poll, and the two
`has_pending()` observations (before computing the timeout and after the
native poll). -/
structure PollStep where
  caller_timeout : Option Nat
  control_flow : ControlFlow
  start : Nat
  now_after_poll : Nat
  pending_before : Bool
  pending_after : Bool
deriving DecidableEq, Repr

/-- The effective native-wait timeout of one `poll_events_with_timeout`
call. -/
def effective_timeout (p : PollStep) : Option Nat :=
  compute_timeout p.pending_before p.caller_timeout p.control_flow p.start

/-- Whether a start cause matches `ResumeTimeReached { .. } | Poll`
(the `matches!` test at `event_loop.rs` line 377). -/
def cause_is_resume_or_poll : StartCause → Bool
  | .ResumeTimeReached _ _ => true
  | .Poll => true
  | _ => false

/-- Whether `poll_events_with_timeout` reaches `single_iteration`
(`event_loop.rs` lines 376-383): it returns early exactly when nothing is
pending after the poll, the cause is neither `ResumeTimeReached` nor
`Poll`, and the effective timeout was `None`. -/
def runs_single_iteration (p : PollStep) : Bool :=
  !(!p.pending_after
    && !cause_is_resume_or_poll (compute_cause p.control_flow p.start p.now_after_poll)
    && (effective_timeout p).isNone)

/-! ## `EventLoop::new` and the process-wide creation guard
(`event_loop.rs` lines 212-279) -/

/-- `EventLoopError` from winit-core, restricted to the variants this
backend produces. -/
inductive EventLoopError where
  | RecreationAttempt : EventLoopError
  | Os : EventLoopError
  | ExitFailure (code : Int) : EventLoopError
deriving DecidableEq, Repr

/-- The environment of one `EventLoop::new` call: the caller-supplied
attributes and the outcomes of the native queries the constructor makes. -/
structure NewEnv where
  any_thread : Bool
  is_main_thread : Bool
  gtk_init_ok : Bool
  display_found : Bool
deriving DecidableEq, Repr

/-- The observable outcome of one `EventLoop::new` call. -/
inductive NewOutcome where
  | created : NewOutcome
  | err (e : EventLoopError) : NewOutcome
  | panicked : NewOutcome
deriving DecidableEq, Repr

/-- `EventLoop::new` (`event_loop.rs` lines 213-232 with `new_gtk`,
lines 234-279).  The first argument is the value of the process-wide
`EVENT_LOOP_CREATED` atomic; the returned flag is its value after the call.
`swap(true)` runs first, so the flag becomes (and stays) true no matter
how the rest of the construction goes: the early-return on an
already-true flag yields `RecreationAttempt`, the off-main-thread check
panics, and GTK/display failures yield OS errors. -/
def event_loop_new (event_loop_created : Bool) (env : NewEnv) : Bool × NewOutcome :=
  if event_loop_created then (true, .err .RecreationAttempt)
  else if !env.any_thread && !env.is_main_thread then (true, .panicked)
  else if !env.gtk_init_ok then (true, .err .Os)
  else if !env.display_found then (true, .err .Os)
  else (true, .created)

/-- A sequence of `EventLoop::new` calls in one process, threading the
`EVENT_LOOP_CREATED` flag; returns the outcome of each call in order. -/
def run_new_calls (event_loop_created : Bool) : List NewEnv → List NewOutcome
  | [] => []
  | env :: rest =>
    (event_loop_new event_loop_created env).2
      :: run_new_calls (event_loop_new event_loop_created env).1 rest

/-! ## `PeekableReceiver` (`event_loop.rs` lines 31-61)

The underlying crossbeam channel endpoint is modelled as the FIFO list of
messages currently buffered in the channel, oldest first; `try_recv` on the
raw channel pops the head and fails on an empty channel, and a producer's
`send` appends at the back. -/

/-- `PeekableReceiver<T>`: the raw receiver plus an optional buffered
element taken out of the channel by `has_incoming`. -/
structure PeekableReceiver (α : Type) where
  recv : List α
  first : Option α
deriving DecidableEq, Repr

namespace PeekableReceiver

variable {α : Type}

/-- `PeekableReceiver::has_incoming` (`event_loop.rs` lines 42-53): reports
whether a message is available, buffering one element out of the raw
channel if none was buffered yet. -/
def has_incoming : PeekableReceiver α → Bool × PeekableReceiver α
  | ⟨recv, some v⟩ => (true, ⟨recv, some v⟩)
  | ⟨[], none⟩ => (false, ⟨[], none⟩)
  | ⟨x :: rest, none⟩ => (true, ⟨rest, some x⟩)

/-- `PeekableReceiver::try_recv` (`event_loop.rs` lines 55-60): yields the
buffered element first, otherwise pops the raw channel. -/
def try_recv : PeekableReceiver α → Option α × PeekableReceiver α
  | ⟨recv, some v⟩ => (some v, ⟨recv, none⟩)
  | ⟨[], none⟩ => (none, ⟨[], none⟩)
  | ⟨x :: rest, none⟩ => (some x, ⟨rest, none⟩)

/-- A producer sending one message into the channel this receiver reads. -/
def send (pr : PeekableReceiver α) (x : α) : PeekableReceiver α :=
  ⟨pr.recv ++ [x], pr.first⟩

/-- The abstraction function: the logical FIFO contents observed through
this receiver — the buffered element (oldest) followed by the channel. -/
def toQueue : PeekableReceiver α → List α
  | ⟨recv, some v⟩ => v :: recv
  | ⟨recv, none⟩ => recv

end PeekableReceiver

/-- One operation on a receiver endpoint. -/
inductive ChanOp (α : Type) where
  | has_incoming : ChanOp α
  | try_recv : ChanOp α
  | send (x : α) : ChanOp α
deriving DecidableEq, Repr

/-- One observation made by a receiver operation. -/
inductive ChanObs (α : Type) where
  | incoming (b : Bool) : ChanObs α
  | received (v : Option α) : ChanObs α
  | sent : ChanObs α
deriving DecidableEq, Repr

/-- `has_incoming` on the plain FIFO queue: observe emptiness, change
nothing. -/
def fifo_has_incoming (q : List α) : Bool × List α :=
  (!q.isEmpty, q)

/-- `try_recv` on the plain FIFO queue: pop the oldest message. -/
def fifo_try_recv : List α → Option α × List α
  | [] => (none, [])
  | x :: rest => (some x, rest)

/-- `send` on the plain FIFO queue: append at the back. -/
def fifo_send (q : List α) (x : α) : List α :=
  q ++ [x]

/-- Run a sequence of operations against a `PeekableReceiver`, collecting
the observations. -/
def run_peekable : PeekableReceiver α → List (ChanOp α) → List (ChanObs α) × PeekableReceiver α
  | pr, [] => ([], pr)
  | pr, .has_incoming :: ops =>
    (.incoming (pr.has_incoming).1 :: (run_peekable (pr.has_incoming).2 ops).1,
      (run_peekable (pr.has_incoming).2 ops).2)
  | pr, .try_recv :: ops =>
    (.received (pr.try_recv).1 :: (run_peekable (pr.try_recv).2 ops).1,
      (run_peekable (pr.try_recv).2 ops).2)
  | pr, .send x :: ops =>
    (.sent :: (run_peekable (pr.send x) ops).1, (run_peekable (pr.send x) ops).2)

/-- Run the same sequence of operations against the plain FIFO queue. -/
def run_fifo : List α → List (ChanOp α) → List (ChanObs α) × List α
  | q, [] => ([], q)
  | q, .has_incoming :: ops =>
    (.incoming (fifo_has_incoming q).1 :: (run_fifo (fifo_has_incoming q).2 ops).1,
      (run_fifo (fifo_has_incoming q).2 ops).2)
  | q, .try_recv :: ops =>
    (.received (fifo_try_recv q).1 :: (run_fifo (fifo_try_recv q).2 ops).1,
      (run_fifo (fifo_try_recv q).2 ops).2)
  | q, .send x :: ops =>
    (.sent :: (run_fifo (fifo_send q x) ops).1, (run_fifo (fifo_send q x) ops).2)

/-! ## The window request channel consumer
(`window_request.rs` lines 12-78)

The async channel serializes the sends of all producer threads into one
total order; `handle_window_requests` receives the pairs in that order,
one at a time.  The native window object owned by a registry entry is
instrumented: it records the sequence of mutations applied to it. -/

/-- `WindowRequest` (`window_request.rs` lines 12-21).  The deferred
closures of `WithGtkWindow` and `WithDefaultVbox` are represented by
opaque tokens. -/
inductive WindowRequest where
  | Title (title : String) : WindowRequest
  | Visible (visible : Bool) : WindowRequest
  | Resizable (resizable : Bool) : WindowRequest
  | Destroy : WindowRequest
  | WithGtkWindow (token : Nat) : WindowRequest
  | WithDefaultVbox (token : Nat) : WindowRequest
  | WireUpEvents (transparent_draw pointer_moved fullscreen : Bool) : WindowRequest
deriving DecidableEq, Repr

/-- A registry entry's native window object, instrumented to record the
mutations applied to it, in application order. -/
structure GtkWindowModel where
  applied : List WindowRequest
deriving DecidableEq, Repr

/-- The window registry `EventLoopWindows` (`event_loop.rs` line 88):
window ids associated to live window entries. -/
abbrev Registry := List (Nat × GtkWindowModel)

/-- `HashMap` lookup on the registry. -/
def lookupWindow (id : Nat) : Registry → Option GtkWindowModel
  | [] => none
  | (k, w) :: rest => if k = id then some w else lookupWindow id rest

/-- `HashMap::remove` on the registry, as performed by the `Destroy` arm
(`window_request.rs` line 31). -/
def eraseWindow (id : Nat) : Registry → Registry
  | [] => []
  | (k, w) :: rest =>
    if k = id then eraseWindow id rest else (k, w) :: eraseWindow id rest

/-- Apply a (non-`Destroy`) request to the native window object of the
entry registered under `id`: the GTK call made by the corresponding match
arm of `handle_window_requests` (`window_request.rs` lines 42-75),
recorded on the instrumented window. -/
def applyToWindow (id : Nat) (req : WindowRequest) : Registry → Registry
  | [] => []
  | (k, w) :: rest =>
    if k = id then (k, ⟨w.applied ++ [req]⟩) :: rest
    else (k, w) :: applyToWindow id req rest

/-- One loop iteration of `handle_window_requests` (`window_request.rs`
lines 29-76) on a received `(id, request)` pair.  `Destroy` is handled
first and removes the registry entry; every other request looks up the
still-registered entry (a miss is a silent no-op) and applies the
mutation.  `none` models a panic: the `unreachable!()` arm of the inner
match, reachable only if a `Destroy` slipped past the outer test. -/
def handle_one_request (r : Registry) (id : Nat) (req : WindowRequest) : Option Registry :=
  if req = .Destroy then some (eraseWindow id r)
  else
    match lookupWindow id r with
    | none => some r
    | some _ =>
      match req with
      | .Destroy => none
      | _ => some (applyToWindow id req r)

/-- `handle_window_requests` over a whole sequence of received pairs, in
receive order; `none` propagates a panic. -/
def handle_window_requests (r : Registry) : List (Nat × WindowRequest) → Option Registry
  | [] => some r
  | (id, req) :: rest =>
    match handle_one_request r id req with
    | none => none
    | some r2 => handle_window_requests r2 rest

/-! ## Redraw coalescing in `single_iteration`
(`event_loop.rs` lines 435-443)

`single_iteration` drains the redraw receiver into a Rust `HashSet` and
then delivers one `RedrawRequested` callback per element of the set.
Iterating a `HashSet` yields each element exactly once, in an order the
standard library leaves unspecified (it depends on the per-process random
hash state).  The delivery order is therefore modelled as an arbitrary
enumeration of the drained set. -/

/-- `enum` is a possible iteration order of the `HashSet` built by
inserting every element of `queue` (`event_loop.rs` lines 436-439): it
lists each distinct element of `queue` exactly once. -/
def IsRedrawSetEnum (queue enum : List Nat) : Prop :=
  enum.Nodup ∧ (∀ x ∈ enum, x ∈ queue) ∧ (∀ x ∈ queue, x ∈ enum)

instance (queue enum : List Nat) : Decidable (IsRedrawSetEnum queue enum) :=
  inferInstanceAs (Decidable (enum.Nodup ∧ (∀ x ∈ enum, x ∈ queue) ∧ (∀ x ∈ queue, x ∈ enum)))

/-- The order in which distinct window ids first entered the redraw queue
("queue order of production"): first occurrences, oldest first. -/
def first_occurrence_order (seen : List Nat) : List Nat → List Nat
  | [] => []
  | x :: rest =>
    if x ∈ seen then first_occurrence_order seen rest
    else x :: first_occurrence_order (x :: seen) rest

/-! ## `SharedWindowState` (`window_state.rs`)

The `f64` scale factor is modelled as a rational.  The `dpi` crate's
`LogicalSize::<i32>::to_physical::<u32>` multiplies each logical
coordinate by the scale factor and casts with `f64::round()` (half away
from zero) followed by a saturating `as u32` conversion. -/

/-- Rust's `f64::round`: round half away from zero. -/
def rust_round (q : ℚ) : ℤ :=
  if 0 ≤ q then ⌊q + 1 / 2⌋ else ⌈q - 1 / 2⌉

/-- Rust's saturating `as u32` cast from a rounded value: negative values
clamp to zero, values above `u32::MAX` clamp to `u32::MAX`. -/
def to_u32_saturating (z : ℤ) : ℕ :=
  min z.toNat (2 ^ 32 - 1)

/-- `dpi` conversion of one logical `i32` coordinate to a physical `u32`
coordinate at a given scale factor. -/
def logical_to_physical (v : ℤ) (scale : ℚ) : ℕ :=
  to_u32_saturating (rust_round (v * scale))

/-- `WindowState` (`window_state.rs` lines 6-17): the fields guarded by
the mutex of `SharedWindowState`. -/
structure WindowState where
  scale_factor : ℚ
  surface_x : ℤ
  surface_y : ℤ
  outer_x : ℤ
  outer_y : ℤ
  surface_width : ℤ
  surface_height : ℤ
  outer_width : ℤ
  outer_height : ℤ
deriving DecidableEq, Repr

/-- `maybe_update` (`window_state.rs` lines 123-131): store the new value
if it differs from the current one, reporting whether a write happened. -/
def maybe_update {α : Type} [DecidableEq α] (current new : α) : α × Bool :=
  if current ≠ new then (new, true) else (current, false)

/-- `SharedWindowState::update_scale_factor` (`window_state.rs`
lines 69-72). -/
def update_scale_factor (s : WindowState) (scale_factor : ℚ) : WindowState × Bool :=
  ({ s with scale_factor := (maybe_update s.scale_factor scale_factor).1 },
    (maybe_update s.scale_factor scale_factor).2)

/-- `SharedWindowState::update_position_and_size` (`window_state.rs`
lines 94-120): update all eight geometry fields under one lock, reporting
`(surface_size_changed, outer_position_changed)`. -/
def update_position_and_size (s : WindowState)
    (surface_x surface_y surface_width surface_height
      outer_x outer_y outer_width outer_height : ℤ) :
    WindowState × Bool × Bool :=
  ({ s with
      surface_x := (maybe_update s.surface_x surface_x).1
      surface_y := (maybe_update s.surface_y surface_y).1
      surface_width := (maybe_update s.surface_width surface_width).1
      surface_height := (maybe_update s.surface_height surface_height).1
      outer_x := (maybe_update s.outer_x outer_x).1
      outer_y := (maybe_update s.outer_y outer_y).1
      outer_width := (maybe_update s.outer_width outer_width).1
      outer_height := (maybe_update s.outer_height outer_height).1 },
    (maybe_update s.surface_width surface_width).2
      || (maybe_update s.surface_height surface_height).2,
    (maybe_update s.outer_x outer_x).2 || (maybe_update s.outer_y outer_y).2)

/-- `SharedWindowState::surface_size` (`window_state.rs` lines 84-87):
convert the stored logical size using the scale factor read under the
same lock, at read time. -/
def surface_size (s : WindowState) : Nat × Nat :=
  (logical_to_physical s.surface_width s.scale_factor,
    logical_to_physical s.surface_height s.scale_factor)

/-- One mutation of the shared window state: an `update_scale_factor`
call from the scale-factor signal handler, or an
`update_position_and_size` call from the configure-event handler. -/
inductive StateOp where
  | setScale (scale_factor : ℚ) : StateOp
  | setPositionAndSize (surface_x surface_y surface_width surface_height
      outer_x outer_y outer_width outer_height : ℤ) : StateOp
deriving DecidableEq, Repr

/-- Apply one mutation, discarding the change reports. -/
def apply_state_op (s : WindowState) : StateOp → WindowState
  | .setScale q => (update_scale_factor s q).1
  | .setPositionAndSize sx sy sw sh ox oy ow oh =>
    (update_position_and_size s sx sy sw sh ox oy ow oh).1

/-- Apply a sequence of mutations in order. -/
def apply_state_ops (s : WindowState) : List StateOp → WindowState
  | [] => s
  | op :: rest => apply_state_ops (apply_state_op s op) rest

/-- The most recently set scale factor after a sequence of mutations
(the claim's "scale factor current at the time of the read"). -/
def last_scale_factor (d : ℚ) : List StateOp → ℚ
  | [] => d
  | .setScale q :: rest => last_scale_factor q rest
  | .setPositionAndSize _ _ _ _ _ _ _ _ :: rest => last_scale_factor d rest

/-- The most recently stored logical surface width. -/
def last_surface_width (d : ℤ) : List StateOp → ℤ
  | [] => d
  | .setScale _ :: rest => last_surface_width d rest
  | .setPositionAndSize _ _ w _ _ _ _ _ :: rest => last_surface_width w rest

/-- The most recently stored logical surface height. -/
def last_surface_height (d : ℤ) : List StateOp → ℤ
  | [] => d
  | .setScale _ :: rest => last_surface_height d rest
  | .setPositionAndSize _ _ _ h _ _ _ _ :: rest => last_surface_height h rest

/-! ## The pump state machine
(`event_loop.rs` lines 203-460)

The native `poll_events_with_timeout` step (the bounded wait, the drain of
synchronously-ready native events, and the possible non-`Init`
`single_iteration`) is abstracted as a parameter `poll_step`; the theorems
below hold for every behavior of it, in particular the real one.  An
application handler is a family of callbacks, each of which observes the
loop state it is handed and issues a sequence of capability calls. -/

/-- `WindowEvent` from winit-core, restricted to the variants this backend
produces. -/
inductive WindowEvent where
  | CloseRequested : WindowEvent
  | Moved (x y : Int) : WindowEvent
  | SurfaceResized (width height : Nat) : WindowEvent
  | Focused (focused : Bool) : WindowEvent
  | Destroyed : WindowEvent
  | RedrawRequested : WindowEvent
deriving DecidableEq, Repr

/-- `QueuedEvent` (`event_loop.rs` lines 63-67); the device event payload
is an opaque token. -/
inductive QueuedEvent where
  | Window (id : Nat) (event : WindowEvent) : QueuedEvent
  | Device (id : Nat) : QueuedEvent
deriving DecidableEq, Repr

/-- `PumpStatus` from winit-core. -/
inductive PumpStatus where
  | Continue : PumpStatus
  | Exit (code : Int) : PumpStatus
deriving DecidableEq, Repr

/-- The mutable state of `ActiveEventLoop` (`event_loop.rs` lines 90-105)
reachable through the capability surface, together with the queues feeding
the loop (the event and redraw channels, as lists oldest-first). -/
structure ALState where
  control_flow : ControlFlow
  exit_code : Option Int
  proxy_wake_flag : Bool
  event_queue : List QueuedEvent
  redraw_queue : List Nat
deriving DecidableEq, Repr

/-- One capability call an application callback can make that mutates loop
state: `ActiveEventLoop::exit`, `ActiveEventLoop::set_control_flow`,
`Window::request_redraw`, or `EventLoopProxy::wake_up`. -/
inductive AppAction where
  | exitRequested : AppAction
  | setControlFlow (cf : ControlFlow) : AppAction
  | requestRedraw (id : Nat) : AppAction
  | proxyWakeUp : AppAction
deriving DecidableEq, Repr

/-- The semantics of one capability call (`event_loop.rs` lines 170-182,
379-382 of `window.rs`, 467-472).  `exit` stores `Some(0)`; nothing on the
capability surface can clear the exit code. -/
def apply_action (a : ALState) : AppAction → ALState
  | .exitRequested => { a with exit_code := some 0 }
  | .setControlFlow cf => { a with control_flow := cf }
  | .requestRedraw id => { a with redraw_queue := a.redraw_queue ++ [id] }
  | .proxyWakeUp => { a with proxy_wake_flag := true }

/-- Apply a sequence of capability calls in order. -/
def apply_actions (a : ALState) (acts : List AppAction) : ALState :=
  acts.foldl apply_action a

/-- An application handler (`ApplicationHandler` from winit-core). -/
structure App where
  new_events : ALState → StartCause → List AppAction
  can_create_surfaces : ALState → List AppAction
  window_event : ALState → Nat → WindowEvent → List AppAction
  device_event : ALState → Nat → List AppAction
  proxy_wake_up : ALState → List AppAction
  about_to_wait : ALState → List AppAction

/-- An application that makes no capability calls. -/
def idle_app : App :=
  ⟨fun _ _ => [], fun _ => [], fun _ _ _ => [], fun _ _ => [], fun _ => [], fun _ => []⟩

/-- The `EventLoop` driver state: the `loop_running` flag and the active
event loop. -/
structure LoopState where
  loop_running : Bool
  active : ALState
deriving DecidableEq, Repr

/-- `EventLoop::drain_events` (`event_loop.rs` lines 448-459): dispatch
every queued event to the application in arrival order. -/
def drain_events (app : App) (a : ALState) (events : List QueuedEvent) : ALState :=
  events.foldl
    (fun a e =>
      match e with
      | .Window id ev => apply_actions a (app.window_event a id ev)
      | .Device id => apply_actions a (app.device_event a id))
    a

/-- The redraw delivery of `single_iteration` (`event_loop.rs` lines
440-442) over a given iteration order of the drained set. -/
def deliver_redraws (app : App) (a : ALState) (ids : List Nat) : ALState :=
  ids.foldl (fun a id => apply_actions a (app.window_event a id .RedrawRequested)) a

/-- The `new_events` callback of `single_iteration` (`event_loop.rs`
lines 423-427), with `can_create_surfaces` on `Init`. -/
def new_events_stage (app : App) (a : ALState) (cause : StartCause) : ALState :=
  let a1 := apply_actions a (app.new_events a cause)
  if cause = .Init then apply_actions a1 (app.can_create_surfaces a1) else a1

/-- The event drain of `single_iteration` (`event_loop.rs` line 429): the
queue is consumed and each event dispatched in arrival order. -/
def drain_stage (app : App) (a : ALState) : ALState :=
  drain_events app { a with event_queue := [] } a.event_queue

/-- The test-and-clear proxy wake of `single_iteration` (`event_loop.rs`
lines 431-433): `swap(false)` clears the flag before the callback runs. -/
def proxy_wake_stage (app : App) (a : ALState) : ALState :=
  if a.proxy_wake_flag then
    apply_actions { a with proxy_wake_flag := false }
      (app.proxy_wake_up { a with proxy_wake_flag := false })
  else a

/-- The coalesced redraw delivery of `single_iteration` (`event_loop.rs`
lines 435-443): the redraw queue is drained into a set and one callback
delivered per element (the hash set iterated here in first-occurrence
order, one valid enumeration). -/
def redraw_stage (app : App) (a : ALState) : ALState :=
  deliver_redraws app { a with redraw_queue := [] }
    (first_occurrence_order [] a.redraw_queue)

/-- `EventLoop::single_iteration` (`event_loop.rs` lines 422-446):
`new_events` (plus `can_create_surfaces` on `Init`), the event drain, the
test-and-clear proxy wake, the coalesced redraw delivery, and
`about_to_wait`. -/
def single_iteration (app : App) (st : LoopState) (cause : StartCause) : LoopState :=
  let a := new_events_stage app st.active cause
  let a := drain_stage app a
  let a := proxy_wake_stage app a
  let a := redraw_stage app a
  { st with active := apply_actions a (app.about_to_wait a) }

/-- `EventLoop::pump_app_events` (`event_loop.rs` lines 305-331): start
the loop with a synthetic `Init` iteration if not running, poll unless
exiting, then report `Exit(code)` (marking the loop not running) or
`Continue`. -/
def pump_app_events (poll_step : Option Nat → LoopState → LoopState) (app : App)
    (timeout : Option Nat) (st : LoopState) : LoopState × PumpStatus :=
  let st1 :=
    if st.loop_running = false then
      single_iteration app { st with loop_running := true } .Init
    else st
  let st2 := if st1.active.exit_code = none then poll_step timeout st1 else st1
  match st2.active.exit_code with
  | some code => ({ st2 with loop_running := false }, .Exit code)
  | none => (st2, .Continue)

/-- `ActiveEventLoop::clear_exit` (`event_loop.rs` lines 108-110). -/
def clear_exit (st : LoopState) : LoopState :=
  { st with active := { st.active with exit_code := none } }

/-- The `loop` body of `run_app_on_demand` (`event_loop.rs` lines
294-300), bounded by fuel: pump with no timeout until an exit; exit code
zero is success, any other code becomes `ExitFailure(code)`.  `none` means
the loop did not exit within the fuel. -/
def run_pump_loop (poll_step : Option Nat → LoopState → LoopState) (app : App) :
    Nat → LoopState → Option (Except EventLoopError Unit)
  | 0, _ => none
  | fuel + 1, st =>
    match pump_app_events poll_step app none st with
    | (_, .Exit code) =>
      if code = 0 then some (Except.ok ()) else some (Except.error (.ExitFailure code))
    | (st2, .Continue) => run_pump_loop poll_step app fuel st2

/-- `EventLoop::run_app_on_demand` (`event_loop.rs` lines 285-303):
clear the exit code, then pump in a tight loop until exit. -/
def run_app_on_demand (poll_step : Option Nat → LoopState → LoopState) (app : App)
    (fuel : Nat) (st : LoopState) : Option (Except EventLoopError Unit) :=
  run_pump_loop poll_step app fuel (clear_exit st)

/-- The same pump loop, returning the exit code that ended it. -/
def run_pump_loop_code (poll_step : Option Nat → LoopState → LoopState) (app : App) :
    Nat → LoopState → Option Int
  | 0, _ => none
  | fuel + 1, st =>
    match pump_app_events poll_step app none st with
    | (_, .Exit code) => some code
    | (st2, .Continue) => run_pump_loop_code poll_step app fuel st2

/-! ## Theorems -/

/-- `maybe_update` always leaves the new value in the field. -/
theorem maybe_update_fst {α : Type} [DecidableEq α] (a b : α) : (maybe_update a b).1 = b := by
  unfold maybe_update
  split
  · rfl
  · next h => exact not_not.mp h

/-- The scale factor after a mutation sequence is the last one set. -/
theorem apply_ops_scale : ∀ (ops : List StateOp) (s : WindowState),
    (apply_state_ops s ops).scale_factor = last_scale_factor s.scale_factor ops
  | [], s => rfl
  | .setScale q :: rest, s => by
    simp only [apply_state_ops, apply_state_op, last_scale_factor]
    rw [apply_ops_scale rest]
    simp [update_scale_factor, maybe_update_fst]
  | .setPositionAndSize sx sy sw sh ox oy ow oh :: rest, s => by
    simp only [apply_state_ops, apply_state_op, last_scale_factor]
    rw [apply_ops_scale rest]
    simp [update_position_and_size]

/-- The logical surface width after a mutation sequence is the last one
stored. -/
theorem apply_ops_surface_width : ∀ (ops : List StateOp) (s : WindowState),
    (apply_state_ops s ops).surface_width = last_surface_width s.surface_width ops
  | [], s => rfl
  | .setScale q :: rest, s => by
    simp only [apply_state_ops, apply_state_op, last_surface_width]
    rw [apply_ops_surface_width rest]
    simp [update_scale_factor]
  | .setPositionAndSize sx sy sw sh ox oy ow oh :: rest, s => by
    simp only [apply_state_ops, apply_state_op, last_surface_width]
    rw [apply_ops_surface_width rest]
    simp [update_position_and_size, maybe_update_fst]

/-- The logical surface height after a mutation sequence is the last one
stored. -/
theorem apply_ops_surface_height : ∀ (ops : List StateOp) (s : WindowState),
    (apply_state_ops s ops).surface_height = last_surface_height s.surface_height ops
  | [], s => rfl
  | .setScale q :: rest, s => by
    simp only [apply_state_ops, apply_state_op, last_surface_height]
    rw [apply_ops_surface_height rest]
    simp [update_scale_factor]
  | .setPositionAndSize sx sy sw sh ox oy ow oh :: rest, s => by
    simp only [apply_state_ops, apply_state_op, last_surface_height]
    rw [apply_ops_surface_height rest]
    simp [update_position_and_size, maybe_update_fst]

/-- Claim C4: after any sequence of scale-factor and geometry updates,
`surface_size()` returns the most recently stored logical surface width
and height converted with the scale factor current at read time — a
scale-factor update made after the last size update is reflected in the
next `surface_size()` result rather than a stale cached physical value. -/
theorem surface_size_uses_current_scale (s : WindowState) (ops : List StateOp) :
    surface_size (apply_state_ops s ops) =
      (logical_to_physical (last_surface_width s.surface_width ops)
          (last_scale_factor s.scale_factor ops),
        logical_to_physical (last_surface_height s.surface_height ops)
          (last_scale_factor s.scale_factor ops)) := by
  unfold surface_size
  rw [apply_ops_scale, apply_ops_surface_width, apply_ops_surface_height]

/-- Membership in a first-occurrence traversal: an element is listed iff
it occurs in the remaining input and was not already seen. -/
theorem mem_first_occurrence_order :
    ∀ (l : List Nat) (seen : List Nat) (x : Nat),
      x ∈ first_occurrence_order seen l ↔ x ∈ l ∧ x ∉ seen
  | [], seen, x => by simp [first_occurrence_order]
  | y :: rest, seen, x => by
    by_cases hy : y ∈ seen
    · simp only [first_occurrence_order, if_pos hy, mem_first_occurrence_order rest,
        List.mem_cons]
      constructor
      · exact fun ⟨hr, hs⟩ => ⟨Or.inr hr, hs⟩
      · rintro ⟨hxy | hr, hs⟩
        · subst hxy
          exact absurd hy hs
        · exact ⟨hr, hs⟩
    · simp only [first_occurrence_order, if_neg hy, List.mem_cons,
        mem_first_occurrence_order rest]
      by_cases hxy : x = y
      · subst hxy
        simp [hy]
      · simp only [hxy, false_or, List.mem_cons]

/-- A first-occurrence traversal lists each element at most once. -/
theorem nodup_first_occurrence_order :
    ∀ (l : List Nat) (seen : List Nat), (first_occurrence_order seen l).Nodup
  | [], seen => by simp [first_occurrence_order]
  | y :: rest, seen => by
    by_cases hy : y ∈ seen
    · simpa [first_occurrence_order, hy] using nodup_first_occurrence_order rest seen
    · simp only [first_occurrence_order, if_neg hy]
      refine List.nodup_cons.mpr ⟨?_, nodup_first_occurrence_order rest (y :: seen)⟩
      rw [mem_first_occurrence_order]
      rintro ⟨_, hns⟩
      exact hns (List.mem_cons_self y seen)

/-- The first-occurrence order used by the deterministic `redraw_stage`
model is one valid iteration order of the drained hash set. -/
theorem first_occurrence_order_is_enum (queue : List Nat) :
    IsRedrawSetEnum queue (first_occurrence_order [] queue) := by
  refine ⟨nodup_first_occurrence_order queue [], ?_, ?_⟩
  · intro x hx
    exact ((mem_first_occurrence_order queue [] x).mp hx).1
  · intro x hx
    exact (mem_first_occurrence_order queue [] x).mpr ⟨hx, by simp⟩

/-- Claim C5: if `N > 1` redraw requests for the same window are enqueued
between two consecutive `single_iteration` calls, the next
`single_iteration` delivers exactly one `RedrawRequested` callback for that
window, whatever iteration order the hash set produces. -/
theorem redraw_coalescing (queue enum : List Nat) (w N : Nat)
    (henum : IsRedrawSetEnum queue enum) (hcount : queue.count w = N) (hN : 1 < N) :
    enum.count w = 1 := by
  obtain ⟨hnodup, hsub, hsup⟩ := henum
  have hwq : w ∈ queue := List.count_pos_iff.mp (by omega)
  have h1 : 0 < enum.count w := List.count_pos_iff.mpr (hsup w hwq)
  have h2 : enum.count w ≤ 1 := List.nodup_iff_count_le_one.mp hnodup w
  omega

/-- Claim C5, witness: two redraw requests for window 5 coalesce into a
single callback. -/
theorem redraw_coalescing_witness :
    (IsRedrawSetEnum [5, 5] [5] ∧ List.count 5 [5, 5] = 2 ∧ 1 < 2) ∧ List.count 5 [5] = 1 :=
  ⟨by decide, redraw_coalescing [5, 5] [5] 5 2 (by decide) (by decide) (by decide)⟩

/-- Claim C6, counterexample: `[2, 1]` is a valid iteration order of the
hash set built from the redraw queue `[1, 2]` — Rust's `HashSet` iteration
order is unspecified — yet it differs from the order in which the requests
entered the queue.  The code therefore does not deliver cross-window
`RedrawRequested` callbacks in queue order. -/
theorem redraw_cross_window_order_counterexample :
    IsRedrawSetEnum [1, 2] [2, 1] ∧ [2, 1] ≠ first_occurrence_order [] [1, 2] := by
  decide

/-- Claim C6, amended: when several distinct windows have pending redraw
requests in one iteration, `single_iteration` delivers exactly one
`RedrawRequested` callback per distinct pending window; the cross-window
delivery order is an arbitrary enumeration of the pending set and is not
guaranteed to be the queue order. -/
theorem redraw_delivery_per_window (queue enum : List Nat) (w : Nat)
    (henum : IsRedrawSetEnum queue enum) :
    enum.count w = if w ∈ queue then 1 else 0 := by
  obtain ⟨hnodup, hsub, hsup⟩ := henum
  by_cases hw : w ∈ queue
  · simp only [hw, if_true]
    have h1 : 0 < enum.count w := List.count_pos_iff.mpr (hsup w hw)
    have h2 : enum.count w ≤ 1 := List.nodup_iff_count_le_one.mp hnodup w
    omega
  · simp only [hw, if_false]
    exact List.count_eq_zero.mpr fun hmem => hw (hsub w hmem)

/-- Claim C6, witness for the amended statement: with pending redraws for
windows 1 and 2 and the iteration order `[2, 1]`, window 1 receives exactly
one callback. -/
theorem redraw_delivery_per_window_witness :
    IsRedrawSetEnum [1, 2] [2, 1] ∧ List.count 1 [2, 1] = if 1 ∈ [1, 2] then 1 else 0 :=
  ⟨by decide, redraw_delivery_per_window [1, 2] [2, 1] 1 (by decide)⟩

/-- The guard flag is true after any `EventLoop::new` call. -/
theorem event_loop_new_sets_flag (created : Bool) (env : NewEnv) :
    (event_loop_new created env).1 = true := by
  unfold event_loop_new
  split
  · rfl
  · split
    · rfl
    · split
      · rfl
      · split <;> rfl

/-- Once the guard flag is set, every call fails with `RecreationAttempt`. -/
theorem run_new_calls_after_created (envs : List NewEnv) :
    run_new_calls true envs = envs.map (fun _ => .err .RecreationAttempt) := by
  induction envs with
  | nil => rfl
  | cons env rest ih => simpa [run_new_calls, event_loop_new] using ih

/-- `has_incoming` observes exactly non-emptiness of the logical queue and
leaves the logical queue unchanged (buffering is invisible through
`toQueue`). -/
theorem has_incoming_refines (pr : PeekableReceiver α) :
    (pr.has_incoming).1 = (fifo_has_incoming pr.toQueue).1 ∧
      (pr.has_incoming).2.toQueue = (fifo_has_incoming pr.toQueue).2 := by
  obtain ⟨recv, first⟩ := pr
  cases first with
  | some v =>
    simp [PeekableReceiver.has_incoming, PeekableReceiver.toQueue, fifo_has_incoming]
  | none =>
    cases recv <;>
      simp [PeekableReceiver.has_incoming, PeekableReceiver.toQueue, fifo_has_incoming]

/-- `try_recv` pops exactly the head of the logical queue: the buffered
element, if any, comes before any later channel element. -/
theorem try_recv_refines (pr : PeekableReceiver α) :
    (pr.try_recv).1 = (fifo_try_recv pr.toQueue).1 ∧
      (pr.try_recv).2.toQueue = (fifo_try_recv pr.toQueue).2 := by
  obtain ⟨recv, first⟩ := pr
  cases first with
  | some v =>
    simp [PeekableReceiver.try_recv, PeekableReceiver.toQueue, fifo_try_recv]
  | none =>
    cases recv <;>
      simp [PeekableReceiver.try_recv, PeekableReceiver.toQueue, fifo_try_recv]

/-- A producer's `send` appends at the back of the logical queue. -/
theorem send_refines (pr : PeekableReceiver α) (x : α) :
    (pr.send x).toQueue = fifo_send pr.toQueue x := by
  obtain ⟨recv, first⟩ := pr
  cases first <;> simp [PeekableReceiver.send, PeekableReceiver.toQueue, fifo_send]

/-- Claim C10: `PeekableReceiver` is observationally equivalent to its
underlying FIFO channel.  For every sequence of `has_incoming`, `try_recv`
and producer-`send` operations, the receiver makes exactly the observations
the plain FIFO queue makes — so `has_incoming` never loses, duplicates, or
reorders messages, and `try_recv` always returns the buffered element
before any later element of the channel. -/
theorem peekable_receiver_refines_fifo (ops : List (ChanOp α)) (pr : PeekableReceiver α) :
    (run_peekable pr ops).1 = (run_fifo pr.toQueue ops).1 ∧
      (run_peekable pr ops).2.toQueue = (run_fifo pr.toQueue ops).2 := by
  induction ops generalizing pr with
  | nil => exact ⟨rfl, rfl⟩
  | cons op ops ih =>
    cases op with
    | has_incoming =>
      have h := has_incoming_refines pr
      have ih2 := ih (pr.has_incoming).2
      rw [h.2] at ih2
      simp [run_peekable, run_fifo, h.1, ih2.1, ih2.2]
    | try_recv =>
      have h := try_recv_refines pr
      have ih2 := ih (pr.try_recv).2
      rw [h.2] at ih2
      simp [run_peekable, run_fifo, h.1, ih2.1, ih2.2]
    | send x =>
      have h := send_refines pr x
      have ih2 := ih (pr.send x)
      rw [h] at ih2
      simp [run_peekable, run_fifo, ih2.1, ih2.2]

/-- Claim C2: every second and subsequent call to `EventLoop::new` in a
process fails with the `RecreationAttempt` error, regardless of whether the
first loop is still alive or whether the first construction even
succeeded. -/
theorem second_new_always_recreation_attempt (envs : List NewEnv) (i : Nat)
    (h1 : 1 ≤ i) (h2 : i < envs.length) :
    (run_new_calls false envs)[i]? = some (.err .RecreationAttempt) := by
  cases envs with
  | nil => simp at h2
  | cons env rest =>
    obtain ⟨j, rfl⟩ : ∃ j, i = j + 1 := ⟨i - 1, by omega⟩
    have hflag := event_loop_new_sets_flag false env
    simp only [run_new_calls, hflag, run_new_calls_after_created, List.getElem?_cons_succ]
    rw [List.getElem?_map, List.getElem?_eq_getElem (by simpa using h2)]
    rfl

/-- Claim C2, witness: with two construction attempts whose environments
would both succeed in isolation, the second call returns
`RecreationAttempt`. -/
theorem second_new_always_recreation_attempt_witness :
    (1 ≤ 1 ∧ 1 < ([⟨true, true, true, true⟩, ⟨true, true, true, true⟩] : List NewEnv).length) ∧
      (run_new_calls false [⟨true, true, true, true⟩, ⟨true, true, true, true⟩])[1]? =
        some (.err .RecreationAttempt) :=
  ⟨by decide,
    second_new_always_recreation_attempt
      [⟨true, true, true, true⟩, ⟨true, true, true, true⟩] 1 (by decide) (by decide)⟩

/-- Claim C3, counterexample: the claim's "otherwise" branch is wrong when
only native GTK events are pending.  With no queued event, no redraw, no
proxy wake, but `gtk::events_pending()` true, caller timeout `None` and
control flow `Wait`, the code forces the effective timeout to zero while
the claim's formula yields no bound. -/
theorem gtk_pending_timeout_counterexample :
    compute_timeout (has_pending false false false true) none .Wait 0 = some 0 ∧
    claimed_timeout false false false none .Wait 0 = none ∧
    compute_timeout (has_pending false false false true) none .Wait 0 ≠
      claimed_timeout false false false none .Wait 0 := by
  decide

/-- Claim C3, amended: in `poll_events_with_timeout`, if any queued event,
redraw request, proxy wake, or pending native GTK event is already pending,
the effective native-wait timeout is zero; otherwise it is the minimum of
the caller timeout and the policy timeout, where `Poll` yields zero, `Wait`
yields no bound (the identity for the minimum), and `WaitUntil d` yields
`d - now` clamped at zero. -/
theorem effective_timeout_characterization (e r pw g : Bool) (caller : Option Nat)
    (cf : ControlFlow) (now : Nat) :
    compute_timeout (has_pending e r pw g) caller cf now =
      if e || r || pw || g then some 0
      else min_with_unbounded caller (claimed_policy_timeout cf now) := by
  cases e <;> cases r <;> cases pw <;> cases g <;> cases caller <;> cases cf <;> rfl

/-- Claim C9: an iteration of `poll_events_with_timeout` skips the
application callback sequence (`single_iteration`) exactly when, after the
native poll, nothing is pending, the derived start cause is neither `Poll`
nor `ResumeTimeReached`, and the effective wait timeout was unbounded; in
every other case the callback sequence runs. -/
theorem single_iteration_skip_characterization (p : PollStep) :
    runs_single_iteration p = false ↔
      (p.pending_after = false
        ∧ compute_cause p.control_flow p.start p.now_after_poll ≠ .Poll
        ∧ (∀ s r, compute_cause p.control_flow p.start p.now_after_poll ≠ .ResumeTimeReached s r)
        ∧ effective_timeout p = none) := by
  cases hpa : p.pending_after <;> cases ht : effective_timeout p <;>
    cases hc : compute_cause p.control_flow p.start p.now_after_poll <;>
      simp [runs_single_iteration, hpa, ht, hc, cause_is_resume_or_poll]

/-- Looking up an id just erased misses. -/
theorem lookup_erase_self (id : Nat) (r : Registry) :
    lookupWindow id (eraseWindow id r) = none := by
  induction r with
  | nil => rfl
  | cons p rest ih =>
    obtain ⟨k, w⟩ := p
    by_cases hk : k = id <;> simp [eraseWindow, lookupWindow, hk, ih]

/-- Erasing one id does not disturb lookups of another. -/
theorem lookup_erase_ne {k id : Nat} (hk : k ≠ id) (r : Registry) :
    lookupWindow id (eraseWindow k r) = lookupWindow id r := by
  induction r with
  | nil => rfl
  | cons p rest ih =>
    obtain ⟨k2, w⟩ := p
    by_cases h2 : k2 = k
    · subst h2
      simp [eraseWindow, lookupWindow, hk, ih]
    · by_cases h3 : k2 = id <;> simp [eraseWindow, lookupWindow, h2, h3, ih, Ne.symm hk]

/-- Applying a request to one window does not disturb lookups of
another. -/
theorem lookup_apply_ne {k id : Nat} (hk : k ≠ id) (req : WindowRequest) (r : Registry) :
    lookupWindow id (applyToWindow k req r) = lookupWindow id r := by
  induction r with
  | nil => rfl
  | cons p rest ih =>
    obtain ⟨k2, w⟩ := p
    by_cases h2 : k2 = k
    · subst h2
      simp [applyToWindow, lookupWindow, hk, ih]
    · by_cases h3 : k2 = id <;> simp [applyToWindow, lookupWindow, h2, h3, ih, Ne.symm hk]

/-- Applying a request to a registered window appends it to that window's
application history. -/
theorem lookup_apply_self {id : Nat} {r : Registry} {w : GtkWindowModel}
    (hlook : lookupWindow id r = some w) (req : WindowRequest) :
    lookupWindow id (applyToWindow id req r) = some ⟨w.applied ++ [req]⟩ := by
  induction r with
  | nil => simp [lookupWindow] at hlook
  | cons p rest ih =>
    obtain ⟨k2, w2⟩ := p
    by_cases h2 : k2 = id
    · subst h2
      simp [lookupWindow] at hlook
      subst hlook
      simp [applyToWindow, lookupWindow]
    · simp [lookupWindow, h2] at hlook
      simp [applyToWindow, lookupWindow, h2, ih hlook]

/-- Erasing an id that is not registered changes nothing. -/
theorem erase_of_lookup_none {id : Nat} {r : Registry}
    (h : lookupWindow id r = none) : eraseWindow id r = r := by
  induction r with
  | nil => rfl
  | cons p rest ih =>
    obtain ⟨k2, w2⟩ := p
    by_cases h2 : k2 = id
    · simp [lookupWindow, h2] at h
    · simp [lookupWindow, h2] at h
      simp [eraseWindow, h2, ih h]

/-- A request for an id that is not registered is a silent no-op and does
not panic. -/
theorem handle_one_request_absent {id : Nat} {r : Registry}
    (h : lookupWindow id r = none) (req : WindowRequest) :
    handle_one_request r id req = some r := by
  by_cases hreq : req = WindowRequest.Destroy
  · subst hreq
    simp [handle_one_request, erase_of_lookup_none h]
  · simp [handle_one_request, hreq, h]

/-- A request for one id never panics and never disturbs the entry of
another id. -/
theorem handle_one_request_ne_key {k id : Nat} (hk : k ≠ id) (r : Registry)
    (req : WindowRequest) :
    ∃ r2, handle_one_request r k req = some r2 ∧
      lookupWindow id r2 = lookupWindow id r := by
  by_cases hreq : req = WindowRequest.Destroy
  · subst hreq
    exact ⟨eraseWindow k r, by simp [handle_one_request], lookup_erase_ne hk r⟩
  · cases hlk : lookupWindow k r with
    | none => exact ⟨r, by simp [handle_one_request, hreq, hlk], rfl⟩
    | some w =>
      refine ⟨applyToWindow k req r, ?_, lookup_apply_ne hk req r⟩
      cases req <;> simp [handle_one_request, hlk] at hreq ⊢

/-- Claim C1: for every window id, the consumer applies the requests
targeting that id, one at a time, in exactly the order they were sent.
If the window is registered with history `w.applied` and none of the sent
requests destroys it, consumption succeeds and the window's history is
extended by exactly the requests sent to its id, in send order. -/
theorem requests_applied_in_send_order (sends : List (Nat × WindowRequest))
    (r : Registry) (id : Nat) (w : GtkWindowModel)
    (hlook : lookupWindow id r = some w)
    (hnodestroy : ∀ p ∈ sends, p.1 = id → p.2 ≠ WindowRequest.Destroy) :
    ∃ r2, handle_window_requests r sends = some r2 ∧
      lookupWindow id r2 =
        some ⟨w.applied ++ (sends.filter (fun p => p.1 == id)).map (fun p => p.2)⟩ := by
  induction sends generalizing r w with
  | nil =>
    exact ⟨r, rfl, by simpa [handle_window_requests] using hlook⟩
  | cons p rest ih =>
    obtain ⟨k, req⟩ := p
    by_cases hk : k = id
    · subst hk
      have hreq : req ≠ WindowRequest.Destroy :=
        hnodestroy (k, req) (List.mem_cons_self _ _) rfl
      have hstep : handle_one_request r k req = some (applyToWindow k req r) := by
        cases req <;> simp [handle_one_request, hlook] at hreq ⊢
      obtain ⟨r2, hrun, hfinal⟩ :=
        ih (applyToWindow k req r) ⟨w.applied ++ [req]⟩ (lookup_apply_self hlook req)
          (fun q hq => hnodestroy q (List.mem_cons_of_mem _ hq))
      refine ⟨r2, ?_, ?_⟩
      · simp [handle_window_requests, hstep, hrun]
      · rw [hfinal]
        simp
    · obtain ⟨r1, hstep, hsame⟩ := handle_one_request_ne_key hk r req
      obtain ⟨r2, hrun, hfinal⟩ :=
        ih r1 w (hsame.trans hlook) (fun q hq => hnodestroy q (List.mem_cons_of_mem _ hq))
      refine ⟨r2, ?_, ?_⟩
      · simp [handle_window_requests, hstep, hrun]
      · rw [hfinal]
        simp [hk]

/-- Claim C1, witness: requests for window 1, interleaved with a destroy
of window 2, are applied to window 1 in exactly the order sent. -/
theorem requests_applied_in_send_order_witness :
    (∀ p ∈ ([(1, .Title ("a")), (2, .Destroy), (1, .Visible true)] :
        List (Nat × WindowRequest)), p.1 = 1 → p.2 ≠ WindowRequest.Destroy) ∧
    ∃ r2,
      handle_window_requests [(1, ⟨[]⟩), (2, ⟨[]⟩)]
          [(1, .Title ("a")), (2, .Destroy), (1, .Visible true)] = some r2 ∧
      lookupWindow 1 r2 = some ⟨[.Title ("a"), .Visible true]⟩ :=
  ⟨by decide,
    requests_applied_in_send_order
      [(1, .Title ("a")), (2, .Destroy), (1, .Visible true)]
      [(1, ⟨[]⟩), (2, ⟨[]⟩)] 1 ⟨[]⟩ rfl (by decide)⟩

/-- Processing any received pair never re-creates a missing registry
entry. -/
theorem handle_one_request_preserves_absent {id : Nat} {r r2 : Registry}
    (h : lookupWindow id r = none) {k : Nat} {req : WindowRequest}
    (hstep : handle_one_request r k req = some r2) :
    lookupWindow id r2 = none := by
  by_cases hk : k = id
  · subst hk
    rw [handle_one_request_absent h req] at hstep
    obtain rfl := Option.some.inj hstep
    exact h
  · obtain ⟨r3, hstep2, hsame⟩ := handle_one_request_ne_key hk r req
    rw [hstep2] at hstep
    obtain rfl := Option.some.inj hstep
    rw [hsame, h]

/-- A whole trace of received pairs never re-creates a missing registry
entry. -/
theorem handle_requests_preserve_absent {id : Nat} :
    ∀ (mid : List (Nat × WindowRequest)) (r r2 : Registry),
      lookupWindow id r = none → handle_window_requests r mid = some r2 →
      lookupWindow id r2 = none := by
  intro mid
  induction mid with
  | nil =>
    intro r r2 h hrun
    obtain rfl := Option.some.inj hrun
    exact h
  | cons p rest ih =>
    intro r r2 h hrun
    obtain ⟨k, req⟩ := p
    unfold handle_window_requests at hrun
    cases hs : handle_one_request r k req with
    | none => rw [hs] at hrun; cases hrun
    | some r3 =>
      rw [hs] at hrun
      exact ih r3 r2 (handle_one_request_preserves_absent h hs) hrun

/-- Claim C7: after the consumer processes a `Destroy` request for an id,
the registry entry for that id is removed; after any amount of later
traffic, a further request for the same id (such as `Title`) causes no
panic (the `unreachable!()` arm is not hit) and has no effect on the
registry or any remaining window. -/
theorem destroy_then_requests_noop (r : Registry) (id : Nat)
    (mid : List (Nat × WindowRequest)) (r2 : Registry)
    (hmid : handle_window_requests (eraseWindow id r) mid = some r2) :
    handle_one_request r id .Destroy = some (eraseWindow id r) ∧
    lookupWindow id (eraseWindow id r) = none ∧
    lookupWindow id r2 = none ∧
    ∀ req, handle_one_request r2 id req = some r2 := by
  have h2 := lookup_erase_self id r
  have h3 := handle_requests_preserve_absent mid (eraseWindow id r) r2 h2 hmid
  exact ⟨by simp [handle_one_request], h2, h3,
    fun req => handle_one_request_absent h3 req⟩

/-- Claim C7, witness: destroy window 1, let traffic for window 2
continue, then send `Title("x")` to the destroyed id: no panic, and the
registry (including window 2) is untouched. -/
theorem destroy_then_requests_noop_witness :
    lookupWindow 1 [(2, ⟨[.Title ("b")]⟩)] = none ∧
      handle_one_request [(2, ⟨[.Title ("b")]⟩)] 1 (.Title ("x")) =
        some [(2, ⟨[.Title ("b")]⟩)] :=
  ⟨(destroy_then_requests_noop [(1, ⟨[]⟩), (2, ⟨[]⟩)] 1 [(2, .Title ("b"))]
      [(2, ⟨[.Title ("b")]⟩)] (by decide)).2.2.1,
    (destroy_then_requests_noop [(1, ⟨[]⟩), (2, ⟨[]⟩)] 1 [(2, .Title ("b"))]
      [(2, ⟨[.Title ("b")]⟩)] (by decide)).2.2.2 (.Title ("x"))⟩

/-- No capability call can clear a requested exit: once the exit code is
`Some(0)`, it stays `Some(0)` through any sequence of calls. -/
theorem apply_actions_exit : ∀ (acts : List AppAction) (a : ALState),
    a.exit_code = some 0 → (apply_actions a acts).exit_code = some 0
  | [], _, h => h
  | act :: rest, a, h =>
    apply_actions_exit rest (apply_action a act) (by cases act <;> simp [apply_action, h])

/-- The event drain preserves a requested exit. -/
theorem drain_events_exit (app : App) : ∀ (evs : List QueuedEvent) (a : ALState),
    a.exit_code = some 0 → (drain_events app a evs).exit_code = some 0
  | [], _, h => h
  | e :: rest, a, h =>
    drain_events_exit app rest _ (by cases e <;> exact apply_actions_exit _ _ h)

/-- The redraw delivery preserves a requested exit. -/
theorem deliver_redraws_exit (app : App) : ∀ (ids : List Nat) (a : ALState),
    a.exit_code = some 0 → (deliver_redraws app a ids).exit_code = some 0
  | [], _, h => h
  | _ :: rest, _, h => deliver_redraws_exit app rest _ (apply_actions_exit _ _ h)

/-- The `new_events` stage preserves a requested exit. -/
theorem new_events_stage_exit (app : App) (a : ALState) (cause : StartCause)
    (h : a.exit_code = some 0) : (new_events_stage app a cause).exit_code = some 0 := by
  unfold new_events_stage
  split
  · exact apply_actions_exit _ _ (apply_actions_exit _ _ h)
  · exact apply_actions_exit _ _ h

/-- The drain stage preserves a requested exit. -/
theorem drain_stage_exit (app : App) (a : ALState)
    (h : a.exit_code = some 0) : (drain_stage app a).exit_code = some 0 :=
  drain_events_exit app _ _ h

/-- The proxy-wake stage preserves a requested exit. -/
theorem proxy_wake_stage_exit (app : App) (a : ALState)
    (h : a.exit_code = some 0) : (proxy_wake_stage app a).exit_code = some 0 := by
  unfold proxy_wake_stage
  split
  · exact apply_actions_exit _ _ h
  · exact h

/-- The redraw stage preserves a requested exit. -/
theorem redraw_stage_exit (app : App) (a : ALState)
    (h : a.exit_code = some 0) : (redraw_stage app a).exit_code = some 0 :=
  deliver_redraws_exit app _ _ h

/-- `single_iteration` preserves a requested exit. -/
theorem single_iteration_preserves_exit (app : App) (st : LoopState) (cause : StartCause)
    (h : st.active.exit_code = some 0) :
    (single_iteration app st cause).active.exit_code = some 0 :=
  apply_actions_exit _ _
    (redraw_stage_exit _ _
      (proxy_wake_stage_exit _ _
        (drain_stage_exit _ _ (new_events_stage_exit _ _ _ h))))

/-- The pump loop maps its terminating exit code to the result
`run_app_on_demand` reports: zero to success, anything else to
`ExitFailure`. -/
theorem run_pump_loop_map_code (poll_step : Option Nat → LoopState → LoopState) (app : App) :
    ∀ (fuel : Nat) (st : LoopState),
      run_pump_loop poll_step app fuel st =
        (run_pump_loop_code poll_step app fuel st).map
          (fun code => if code = 0 then Except.ok () else Except.error (.ExitFailure code))
  | 0, _ => rfl
  | fuel + 1, st => by
    simp only [run_pump_loop, run_pump_loop_code]
    rcases hp : pump_app_events poll_step app none st with ⟨st2, status⟩
    cases status with
    | Continue => exact run_pump_loop_map_code poll_step app fuel st2
    | Exit code => by_cases hc : code = 0 <;> simp [hc]

/-- Claim C8: (a) once `exit()` has been requested the next `pump` call —
for any poll behavior, any application, any timeout — returns `Exit(0)`
and marks the loop not running so a subsequent pump or run can restart;
(b) `run_app_on_demand` returns success exactly when the terminating exit
code is 0, and a structured `ExitFailure` carrying the exit code
otherwise. -/
theorem pump_after_exit_and_run_result :
    (∀ (poll_step : Option Nat → LoopState → LoopState) (app : App) (timeout : Option Nat)
        (st : LoopState), st.active.exit_code = some 0 →
        (pump_app_events poll_step app timeout st).2 = .Exit 0 ∧
          (pump_app_events poll_step app timeout st).1.loop_running = false) ∧
    (∀ (poll_step : Option Nat → LoopState → LoopState) (app : App) (fuel : Nat)
        (st : LoopState),
        run_app_on_demand poll_step app fuel st =
          (run_pump_loop_code poll_step app fuel (clear_exit st)).map
            (fun code => if code = 0 then Except.ok () else Except.error (.ExitFailure code))) := by
  constructor
  · intro poll_step app timeout st h
    simp only [pump_app_events]
    set st1 :=
      if st.loop_running = false then
        single_iteration app { st with loop_running := true } .Init
      else st with hst1
    have h1 : st1.active.exit_code = some 0 := by
      rw [hst1]
      split
      · exact single_iteration_preserves_exit app _ _ h
      · exact h
    rw [if_neg (by rw [h1]; simp), h1]
    exact ⟨rfl, rfl⟩
  · intro poll_step app fuel st
    exact run_pump_loop_map_code poll_step app fuel (clear_exit st)

/-- Claim C8, witness: with the exit code already `Some(0)`, a pump with
the identity poll step and an idle application returns `Exit(0)` and
leaves the loop marked not running. -/
theorem pump_after_exit_witness :
    ((⟨true, ⟨.Poll, some 0, false, [], []⟩⟩ : LoopState).active.exit_code = some 0) ∧
      (pump_app_events (fun _ s => s) idle_app none
          ⟨true, ⟨.Poll, some 0, false, [], []⟩⟩).2 = .Exit 0 ∧
      (pump_app_events (fun _ s => s) idle_app none
          ⟨true, ⟨.Poll, some 0, false, [], []⟩⟩).1.loop_running = false :=
  ⟨rfl,
    (pump_after_exit_and_run_result.1 (fun _ s => s) idle_app none
      ⟨true, ⟨.Poll, some 0, false, [], []⟩⟩ rfl).1,
    (pump_after_exit_and_run_result.1 (fun _ s => s) idle_app none
      ⟨true, ⟨.Poll, some 0, false, [], []⟩⟩ rfl).2⟩

end Winit
